import Mathlib

/-!
Verification of the mock CRM data generator
(`src/extract/generate_mock_data.py`) of the marketingcloud-data-pipeline
repository.

The generator is a single-threaded pass that draws from one seeded
pseudo-random source.  We embed each generator as a pure function whose
extra arguments are the values produced by the successive calls into the
random library (`random.random()` coins in `[0,1)`, `random.randint`
draws, `random.choice`/`random.sample` index draws, `random.uniform`
draws).  Floats are modelled as rationals, datetimes as calendar dates.
-/

/-- Calendar date, modelling Python `datetime` at day granularity (the
generator only ever adds whole days to datetimes). -/
structure Date where
  year : ℤ
  month : ℤ
  day : ℤ
deriving DecidableEq, Repr

/-- Gregorian leap-year test, as implemented by Python's `datetime`. -/
def isLeap (y : ℤ) : Bool := (y % 4 == 0 && y % 100 != 0) || (y % 400 == 0)

/-- Number of days in a month of the Gregorian calendar. -/
def daysInMonth (y m : ℤ) : ℤ :=
  if m = 2 then (if isLeap y then 29 else 28)
  else if m = 4 ∨ m = 6 ∨ m = 9 ∨ m = 11 then 30
  else 31

/-- Successor day, rolling over month and year boundaries. -/
def nextDay (dt : Date) : Date :=
  if dt.day < daysInMonth dt.year dt.month then { dt with day := dt.day + 1 }
  else if dt.month < 12 then { year := dt.year, month := dt.month + 1, day := 1 }
  else { year := dt.year + 1, month := 1, day := 1 }

/-- Predecessor day, rolling over month and year boundaries. -/
def prevDay (dt : Date) : Date :=
  if 1 < dt.day then { dt with day := dt.day - 1 }
  else if 1 < dt.month then
    { year := dt.year, month := dt.month - 1, day := daysInMonth dt.year (dt.month - 1) }
  else { year := dt.year - 1, month := 12, day := 31 }

/-- Date plus a (nonnegative) number of days: `date + timedelta(days=n)`. -/
def addDays (dt : Date) : ℕ → Date
  | 0 => dt
  | n + 1 => addDays (nextDay dt) n

/-- Date minus a number of days. -/
def subDays (dt : Date) : ℕ → Date
  | 0 => dt
  | n + 1 => subDays (prevDay dt) n

/-- Date plus a possibly negative number of days: `date + timedelta(days=z)`. -/
def addDaysInt (dt : Date) (z : ℤ) : Date :=
  if 0 ≤ z then addDays dt z.toNat else subDays dt (-z).toNat

/-- Value of `random.choice(l)` when the library picks index `i % l.length`;
`d` is a default that is never used on the nonempty lists the generator
passes (Python raises on an empty list). -/
def pyChoice {α : Type} (l : List α) (d : α) (i : ℕ) : α :=
  l.getD (i % l.length) d

/-- Value of `random.randint(a, b)` (inclusive bounds, `a ≤ b`) when the
library draws `d`: some value in `[a, b]`. -/
def pyRandintNat (a b : ℕ) (d : ℕ) : ℕ := a + d % (b + 1 - a)

/-- Value of `random.randint(a, b)` for integer bounds. -/
def pyRandintInt (a b : ℤ) (d : ℕ) : ℤ := a + (d : ℤ) % (b - a + 1)

/-- Python `int()` applied to a float: truncation toward zero. -/
def pyInt (q : ℚ) : ℤ := if 0 ≤ q then ⌊q⌋ else -⌊-q⌋

/-- Python `round()` to an integer: round half to even (banker's rounding). -/
def pyRound (q : ℚ) : ℤ :=
  if q - ⌊q⌋ < 1/2 then ⌊q⌋
  else if 1/2 < q - ⌊q⌋ then ⌊q⌋ + 1
  else if ⌊q⌋ % 2 = 0 then ⌊q⌋ else ⌊q⌋ + 1

/-- Python `round(x, 2)`: round to 2 decimal places. -/
def round2 (q : ℚ) : ℚ := (pyRound (q * 100) : ℚ) / 100

/-- Map with the element's position, used where a loop consumes one random
draw per iteration. -/
def mapWithIndex {α β : Type} (f : ℕ → α → β) : List α → ℕ → List β
  | [], _ => []
  | x :: xs, k => f k x :: mapWithIndex f xs (k + 1)

/-- Sampling without replacement: `k` picks, the library drawing the raw
indices `idxs` (reduced modulo the current pool size, so every pick hits
the pool while it is nonempty). -/
def sampleList {α : Type} : List α → ℕ → List ℕ → List α
  | _, 0, _ => []
  | pool, k + 1, idxs =>
    match pool.get? (idxs.headD 0 % pool.length) with
    | some x => x :: sampleList (pool.eraseIdx (idxs.headD 0 % pool.length)) k idxs.tail
    | none => []

/-- Model of `random.sample(pool, k)`: returns `none` (a `ValueError` in
Python) when `k` is negative or exceeds the population size, otherwise
`k` elements drawn without replacement. -/
def pySample {α : Type} (pool : List α) (k : ℤ) (idxs : List ℕ) : Option (List α) :=
  if 0 ≤ k ∧ k ≤ (pool.length : ℤ) then some (sampleList pool k.toNat idxs) else none

/-- The `STAGES` table: opportunity stages paired with their probability
percentage (standard Salesforce values). -/
def STAGES : List (String × ℤ) :=
  [("Prospecting", 10), ("Qualification", 20), ("Needs Analysis", 40),
   ("Value Proposition", 60), ("Negotiation", 80), ("Closed Won", 100),
   ("Closed Lost", 0)]

/-- The `LEAD_STATUSES` table. -/
def LEAD_STATUSES : List String :=
  ["Open - Not Contacted", "Working - Contacted", "Closed - Converted",
   "Closed - Not Converted"]

/-- The `TASK_TYPES` table. -/
def TASK_TYPES : List String :=
  ["Call", "Email", "Meeting", "Demo", "Follow-up", "Other"]

/-- Probability lookup derived from the `STAGES` table: the percentage
paired with a stage name. -/
def stageLookup (s : String) : Option ℤ :=
  ((STAGES.find? (fun p => p.1 == s)).map (fun p => p.2))

/-- Salesforce `User` record, the fields the claims touch. -/
structure UserRec where
  Id : ℕ
  ManagerId : Option ℕ
  IsActive : Bool
  CreatedDate : Date
deriving DecidableEq, Repr

/-- Embedding of `generate_users`: one top-level manager with no manager
reference is created first, then `numUsers - 1` reps reporting to it.
`managerId` and `repIds` stand for the `generate_sf_id('005')` draws,
`activeCoins` for the per-rep `random.random()` draws (a rep is active
when its coin exceeds `0.1`), `dateDraws` for the `random_date` draws. -/
def generate_users (numUsers : ℕ) (managerId : ℕ) (repIds : ℕ → ℕ)
    (activeCoins : ℕ → ℚ) (dateDraws : ℕ → ℕ) : List UserRec :=
  { Id := managerId, ManagerId := none, IsActive := true,
    CreatedDate := ⟨2022, 1, 1⟩ } ::
  (List.range (numUsers - 1)).map (fun i =>
    { Id := repIds i, ManagerId := some managerId,
      IsActive := decide ((1 : ℚ)/10 < activeCoins i),
      CreatedDate := addDays ⟨2022, 1, 1⟩ (dateDraws i) })

/-- Salesforce `Account` record, the fields the claims touch. -/
structure AccountRec where
  Id : ℕ
  OwnerId : ℕ
  NumberOfEmployees : ℕ
  CreatedDate : Date
deriving DecidableEq, Repr

/-- Salesforce `Contact` record, the fields the claims touch. -/
structure ContactRec where
  Id : ℕ
  AccountId : ℕ
  OwnerId : ℕ
  CreatedDate : Date
deriving DecidableEq, Repr

/-- Per-account contact count in `generate_contacts`:
`random.randint(1, min(5, max(1, employees // 100)))`. -/
def numContactsFor (employees : ℕ) (d : ℕ) : ℕ :=
  pyRandintNat 1 (min 5 (max 1 (employees / 100))) d

/-- The bound the spec quotes for the per-account contact count:
`clamp(1, employees // 100, 5)`.  Stated from the spec's words, for
comparison with the code's `numContactsFor`. -/
def specContactClamp (employees : ℕ) : ℕ := min 5 (max 1 (employees / 100))

/-- Embedding of `generate_contacts`: for each account, `numContactsFor`
contacts owned by the account's owner and created at the account's creation
date.  `countDraws k` is the `randint` draw for the `k`-th account,
`idDraws k j` the id draw for its `j`-th contact. -/
def generate_contacts : List AccountRec → (ℕ → ℕ) → (ℕ → ℕ → ℕ) → ℕ → List ContactRec
  | [], _, _, _ => []
  | a :: rest, countDraws, idDraws, k =>
    (List.range (numContactsFor a.NumberOfEmployees (countDraws k))).map
      (fun j => { Id := idDraws k j, AccountId := a.Id, OwnerId := a.OwnerId,
                  CreatedDate := a.CreatedDate })
    ++ generate_contacts rest countDraws idDraws (k + 1)

/-- Salesforce `Lead` record: conversion-tracking fields of `generate_leads`. -/
structure LeadConvRec where
  Id : ℕ
  Status : String
  IsConverted : Bool
  ConvertedAccountId : Option ℕ
  ConvertedContactId : Option ℕ
  ConvertedOpportunityId : Option ℕ
  ConvertedDate : Option Date
deriving DecidableEq, Repr

/-- Embedding of the conversion logic of `generate_leads` for one lead:
30% of leads are converted (`coin < 0.30`); a converted lead gets
placeholder account/contact ids, an opportunity id 80% of the time
(`oppCoin < 0.8`), and a conversion date 7-90 days after creation; an
unconverted lead gets a status from the first two `LEAD_STATUSES` and all
conversion fields null. -/
def leadConversion (leadId : ℕ) (created : Date) (coin : ℚ) (dateDraw : ℕ)
    (acctId contactId oppId : ℕ) (oppCoin : ℚ) (statusIdx : ℕ) : LeadConvRec :=
  if coin < 3/10 then
    { Id := leadId, Status := "Closed - Converted", IsConverted := true,
      ConvertedAccountId := some acctId,
      ConvertedContactId := some contactId,
      ConvertedOpportunityId := if oppCoin < 4/5 then some oppId else none,
      ConvertedDate := some (addDays created (pyRandintNat 7 90 dateDraw)) }
  else
    { Id := leadId, Status := pyChoice (LEAD_STATUSES.take 2) "" statusIdx,
      IsConverted := false,
      ConvertedAccountId := none, ConvertedContactId := none,
      ConvertedOpportunityId := none, ConvertedDate := none }

/-- Salesforce `OpportunityLineItem` record. -/
structure LineItemRec where
  Id : ℕ
  OpportunityId : ℕ
  Product2Id : ℕ
  Quantity : ℤ
  UnitPrice : ℚ
  TotalPrice : ℚ
deriving DecidableEq, Repr

/-- The `product_prices` dictionary of `generate_opportunities`:
`{pbe.Product2Id: pbe.UnitPrice}` with `.get(pid, 10000)`.  A Python dict
comprehension keeps the last entry for a duplicated key, hence the lookup
on the reversed list. -/
def priceLookup (pbes : List (ℕ × ℚ)) (pid : ℕ) : ℚ :=
  (((pbes.reverse.find? (fun e => e.1 == pid)).map (fun e => e.2))).getD 10000

/-- The per-opportunity amount-allocation loop of `generate_opportunities`:
every product but the last takes `round(remaining * uniform(0.2, 0.5), 2)`
of the remaining amount, and the last product absorbs whatever remains.
`fracs` are the successive `random.uniform(0.2, 0.5)` draws. -/
def allocAmounts : ℚ → List ℕ → List ℚ → List ℚ
  | _, [], _ => []
  | remaining, [_], _ => [remaining]
  | remaining, _ :: p₂ :: rest, fracs =>
    round2 (remaining * fracs.headD (7/20)) ::
      allocAmounts (remaining - round2 (remaining * fracs.headD (7/20))) (p₂ :: rest) fracs.tail

/-- One `OpportunityLineItem` of `generate_opportunities`:
`quantity = max(1, int(item_amount / unit_price))` and
`TotalPrice = round(quantity * unit_price, 2)`. -/
def mkLineItem (itemId oppId pid : ℕ) (unitPrice itemAmount : ℚ) : LineItemRec :=
  { Id := itemId, OpportunityId := oppId, Product2Id := pid,
    Quantity := max 1 (pyInt (itemAmount / unitPrice)),
    UnitPrice := unitPrice,
    TotalPrice := round2 ((max 1 (pyInt (itemAmount / unitPrice)) : ℤ) * unitPrice) }

/-- The line items generated for one opportunity: the selected product ids
zipped with their allocated amounts, each priced through `priceLookup`. -/
def mkLineItems (oppId : ℕ) (pbes : List (ℕ × ℚ)) (amount : ℚ) (pids : List ℕ)
    (fracs : List ℚ) (itemIds : ℕ → ℕ) : List LineItemRec :=
  mapWithIndex
    (fun j pia => mkLineItem (itemIds j) oppId pia.1 (priceLookup pbes pia.1) pia.2)
    (pids.zip (allocAmounts amount pids fracs)) 0

/-- The quantity formula as the spec words it:
`max(1, round(item_amount / unit_price))`.  Stated from the spec, for
comparison with the code's truncating `mkLineItem`. -/
def specQuantity (itemAmount unitPrice : ℚ) : ℤ := max 1 (round (itemAmount / unitPrice))

/-- Stage, probability and the two closed-status flags of one opportunity. -/
structure StagePick where
  stage : String
  prob : ℤ
  is_closed : Bool
  is_won : Bool
deriving DecidableEq, Repr

/-- A closed pick in `generate_opportunities`: a `(stage, prob)` pair drawn
from a list, with `is_closed = True` and `is_won = (stage == 'Closed Won')`. -/
def closedPick (l : List (String × ℤ)) (i : ℕ) : StagePick :=
  { stage := (pyChoice l ("", 0) i).1, prob := (pyChoice l ("", 0) i).2,
    is_closed := true, is_won := decide ((pyChoice l ("", 0) i).1 = "Closed Won") }

/-- An open pick in `generate_opportunities`: a `(stage, prob)` pair drawn
from a list, with `is_closed = False` and `is_won = False`. -/
def openPick (l : List (String × ℤ)) (i : ℕ) : StagePick :=
  { stage := (pyChoice l ("", 0) i).1, prob := (pyChoice l ("", 0) i).2,
    is_closed := false, is_won := false }

/-- The age-tiered stage selection of `generate_opportunities`: deals older
than 180 days are closed with probability 0.8 (otherwise an open stage from
`STAGES[:5]`), deals older than 90 days are closed with probability 0.5
(otherwise a later open stage from `STAGES[2:5]`), younger deals draw an
early open stage from `STAGES[:4]`.  A closed deal draws from
`[STAGES[5], STAGES[6]]`. -/
def stageSelect (daysOld : ℤ) (closedCoin : ℚ) (iOld iMed iNew : ℕ) : StagePick :=
  if 180 < daysOld then
    if closedCoin < 4/5 then
      closedPick [STAGES.getD 5 ("", 0), STAGES.getD 6 ("", 0)] iOld
    else openPick (STAGES.take 5) iOld
  else if 90 < daysOld then
    if closedCoin < 1/2 then
      closedPick [STAGES.getD 5 ("", 0), STAGES.getD 6 ("", 0)] iMed
    else openPick ((STAGES.drop 2).take 3) iMed
  else openPick (STAGES.take 4) iNew

/-- The size penalty of `generate_opportunities`: a closed deal above
$100,000 is downgraded to `Closed Lost` (probability 0, not won) with
probability 0.3. -/
def applySizePenalty (amount : ℚ) (r : StagePick) (penaltyCoin : ℚ) : StagePick :=
  if r.is_closed = true ∧ 100000 < amount then
    if penaltyCoin < 3/10 then
      { stage := "Closed Lost", prob := 0, is_closed := r.is_closed, is_won := false }
    else r
  else r

/-- Stage, probability, `IsClosed` and `IsWon` of one generated opportunity:
the age-tiered selection followed by the large-deal downgrade. -/
def oppStage (daysOld : ℤ) (closedCoin : ℚ) (iOld iMed iNew : ℕ)
    (amount : ℚ) (penaltyCoin : ℚ) : StagePick :=
  applySizePenalty amount (stageSelect daysOld closedCoin iOld iMed iNew) penaltyCoin

/-- The invariants claimed for every generated opportunity: `IsWon` implies
`IsClosed`; `IsClosed` implies a closed stage name; and the probability is
exactly the `STAGES` lookup value of the stage name. -/
def OppStageInv (r : StagePick) : Prop :=
  (r.is_won = true → r.is_closed = true) ∧
  (r.is_closed = true → r.stage = "Closed Won" ∨ r.stage = "Closed Lost") ∧
  stageLookup r.stage = some r.prob

/-- Embedding of `random_date(start, end)`: `start` plus the
`random.randint(0, (end - start).days)` draw `d`. -/
def random_date (start : Date) (d : ℕ) : Date := addDays start d

/-- The quarter-end relocation of `random_date_weighted_quarter_end`: the
date is moved to the last days of its enclosing fiscal quarter, keeping the
year (`quarter_end_month = ((month - 1) // 3 + 1) * 3`; day `randint(20, 31)`
for December, `randint(20, 28)` otherwise - `qDayDec`/`qDayOther` are those
draws). -/
def quarterEndRelocate (dt : Date) (qDayDec qDayOther : ℤ) : Date :=
  if (dt.month - 1) / 3 * 3 + 3 = 12 then { dt with month := 12, day := qDayDec }
  else { dt with month := (dt.month - 1) / 3 * 3 + 3, day := qDayOther }

/-- Embedding of `random_date_weighted_quarter_end(start, end)`: with
probability 0.30 the uniformly drawn date is relocated to the end of its
fiscal quarter, otherwise it is returned unchanged. -/
def random_date_weighted_quarter_end (start : Date) (d : ℕ) (biasCoin : ℚ)
    (qDayDec qDayOther : ℤ) : Date :=
  if biasCoin < 3/10 then quarterEndRelocate (random_date start d) qDayDec qDayOther
  else random_date start d

/-- The close-date policy of `generate_opportunities`: a closed deal closes
`randint(30, 180)` days after creation; an open deal gets a forward-looking
quarter-end-biased date drawn from `[datetime.now(), datetime.now() + 180
days]` - the wall-clock `now` is an input of the computation. -/
def oppCloseDate (isClosed : Bool) (created : Date) (closedDraw : ℕ)
    (now : Date) (openDraw : ℕ) (biasCoin : ℚ) (qDayDec qDayOther : ℤ) : Date :=
  if isClosed then addDays created (pyRandintNat 30 180 closedDraw)
  else random_date_weighted_quarter_end now openDraw biasCoin qDayDec qDayOther

/-- Salesforce `Campaign` record, the fields `generate_campaign_members`
reads.  `Type'` stands for the Python attribute `Type`. -/
structure CampaignRec where
  Id : ℕ
  Type' : String
  Status : String
  NumberSent : ℕ
  CreatedDate : Date
deriving DecidableEq, Repr

/-- The lead fields `generate_campaign_members` reads. -/
structure LeadRec where
  Id : ℕ
  IsConverted : Bool
deriving DecidableEq, Repr

/-- Salesforce `CampaignMember` record. -/
structure CampaignMemberRec where
  Id : ℕ
  CampaignId : ℕ
  LeadId : Option ℕ
  ContactId : Option ℕ
  Status : String
  HasResponded : Bool
  CreatedDate : Date
  LastModifiedDate : Date
deriving DecidableEq, Repr

/-- The random draws `generate_campaign_members` consumes for one campaign:
the `uniform(0.3, 0.7)` member-scale draw, the two `random.sample` index
streams, and per-member response coins, status choices, date offsets and
ids for the contact loop and the lead loop. -/
structure MemberDraws where
  u : ℚ
  cIdxs : List ℕ
  lIdxs : List ℕ
  cCoins : ℕ → ℚ
  lCoins : ℕ → ℚ
  cStatusIdx : ℕ → ℕ
  lStatusIdx : ℕ → ℕ
  cDayOff : ℕ → ℕ
  lDayOff : ℕ → ℕ
  cIds : ℕ → ℕ
  lIds : ℕ → ℕ

/-- The target member count of `generate_campaign_members` for one
campaign: completed campaigns target all of `NumberSent`, others
`int(NumberSent * uniform(0.3, 0.7))`; the target is scaled by campaign
type (Email full, Webinar half, others 0.3) and capped at the eligible
pool (`contacts + unconverted leads`). -/
def memberTarget (camp : CampaignRec) (poolContacts poolLeads : ℕ) (u : ℚ) : ℤ :=
  if camp.Status = "Completed" then
    if camp.Type' = "Email" then
      min (camp.NumberSent : ℤ) ((poolContacts + poolLeads : ℕ) : ℤ)
    else if camp.Type' = "Webinar" then
      min (pyInt (((camp.NumberSent : ℤ) : ℚ) * (1/2))) ((poolContacts + poolLeads : ℕ) : ℤ)
    else
      min (pyInt (((camp.NumberSent : ℤ) : ℚ) * (3/10))) ((poolContacts + poolLeads : ℕ) : ℤ)
  else
    if camp.Type' = "Email" then
      min (pyInt ((camp.NumberSent : ℚ) * u)) ((poolContacts + poolLeads : ℕ) : ℤ)
    else if camp.Type' = "Webinar" then
      min (pyInt ((pyInt ((camp.NumberSent : ℚ) * u) : ℚ) * (1/2)))
        ((poolContacts + poolLeads : ℕ) : ℤ)
    else
      min (pyInt ((pyInt ((camp.NumberSent : ℚ) * u) : ℚ) * (3/10)))
        ((poolContacts + poolLeads : ℕ) : ℤ)

/-- Whether a contact member responded: coin under 0.15 for Email/Webinar
campaigns, under 0.40 for Conference, under 0.10 otherwise. -/
def contactResponded (camp : CampaignRec) (coin : ℚ) : Bool :=
  if camp.Type' = "Email" ∨ camp.Type' = "Webinar" then decide (coin < 3/20)
  else if camp.Type' = "Conference" then decide (coin < 2/5)
  else decide (coin < 1/10)

/-- The 70/30 member split of `generate_campaign_members`:
`num_contacts = int(num_members * 0.70)`, `num_leads` the remainder.
Returns `(num_contacts, num_leads)`. -/
def memberQuota (camp : CampaignRec) (poolContacts poolLeads : ℕ) (u : ℚ) : ℤ × ℤ :=
  (pyInt ((memberTarget camp poolContacts poolLeads u : ℚ) * (7/10)),
   memberTarget camp poolContacts poolLeads u -
     pyInt ((memberTarget camp poolContacts poolLeads u : ℚ) * (7/10)))

/-- A campaign member built from a contact: `LeadId` is null, `ContactId`
is the contact's id.  Response rate is 15% for Email/Webinar campaigns,
40% for Conference, 10% otherwise. -/
def contactMember (camp : CampaignRec) (d : MemberDraws) (j : ℕ)
    (ct : ContactRec) : CampaignMemberRec :=
  { Id := d.cIds j, CampaignId := camp.Id, LeadId := none,
    ContactId := some ct.Id,
    Status := if contactResponded camp (d.cCoins j) = true
              then pyChoice ["Responded", "Attended"] "" (d.cStatusIdx j) else "Sent",
    HasResponded := contactResponded camp (d.cCoins j),
    CreatedDate := camp.CreatedDate,
    LastModifiedDate := addDays camp.CreatedDate (pyRandintNat 0 7 (d.cDayOff j)) }

/-- A campaign member built from a lead: `ContactId` is null, `LeadId` is
the lead's id.  Leads respond at a flat 12%. -/
def leadMember (camp : CampaignRec) (d : MemberDraws) (j : ℕ)
    (ld : LeadRec) : CampaignMemberRec :=
  { Id := d.lIds j, CampaignId := camp.Id, LeadId := some ld.Id,
    ContactId := none,
    Status := if decide (d.lCoins j < 3/25) = true
              then pyChoice ["Responded", "Attended"] "" (d.lStatusIdx j) else "Sent",
    HasResponded := decide (d.lCoins j < 3/25),
    CreatedDate := camp.CreatedDate,
    LastModifiedDate := addDays camp.CreatedDate (pyRandintNat 0 7 (d.lDayOff j)) }

/-- The members of one campaign: a sample of contacts (each yielding a
contact member) followed by a sample of the unconverted leads (each
yielding a lead member); each `random.sample` request is capped at its
pool's size. -/
def membersForCampaign (camp : CampaignRec) (contacts : List ContactRec)
    (uleads : List LeadRec) (d : MemberDraws) : Option (List CampaignMemberRec) :=
  (pySample contacts
      (min (memberQuota camp contacts.length uleads.length d.u).1 (contacts.length : ℤ))
      d.cIdxs).bind fun sc =>
    (pySample uleads
        (min (memberQuota camp contacts.length uleads.length d.u).2 (uleads.length : ℤ))
        d.lIdxs).map fun sl =>
      mapWithIndex (contactMember camp d) sc 0 ++ mapWithIndex (leadMember camp d) sl 0

/-- The per-campaign loop of `generate_campaign_members`, threading the
draw stream by campaign position. -/
def genMembersGo : List CampaignRec → List ContactRec → List LeadRec →
    (ℕ → MemberDraws) → ℕ → Option (List CampaignMemberRec)
  | [], _, _, _, _ => some []
  | c :: rest, contacts, uleads, ds, k =>
    (membersForCampaign c contacts uleads (ds k)).bind fun ms =>
      (genMembersGo rest contacts uleads ds (k + 1)).map fun more => ms ++ more

/-- Embedding of `generate_campaign_members`: converted leads are excluded
from the eligible pool, then each campaign contributes its members in
order. -/
def generate_campaign_members (campaigns : List CampaignRec) (leads : List LeadRec)
    (contacts : List ContactRec) (ds : ℕ → MemberDraws) :
    Option (List CampaignMemberRec) :=
  genMembersGo campaigns contacts (leads.filter (fun l => !l.IsConverted)) ds 0

/-- The opportunity fields `generate_activities` reads. -/
structure OppRef where
  AccountId : ℕ
  CreatedDate : Date
deriving DecidableEq, Repr

/-- Salesforce `Task` record, the fields the claims touch. -/
structure TaskRec where
  Id : ℕ
  WhoId : Option ℕ
  WhatId : ℕ
  OwnerId : ℕ
  Type' : String
  ActivityDate : Date
  CallDurationInSeconds : ℕ
deriving DecidableEq, Repr

/-- The `contacts_by_account` lookup of `generate_activities`: the contacts
whose `AccountId` is the given account id, in generation order. -/
def contactsForAccount (contacts : List ContactRec) (aid : ℕ) : List ContactRec :=
  contacts.filter (fun c => c.AccountId == aid)

/-- The account selection of one `generate_activities` iteration: with
probability 0.7 (and a nonempty opportunity table) an account that has
opportunities, otherwise any account. -/
def taskAccount (accounts : List AccountRec) (opps : List OppRef) (coin : ℚ)
    (idx : ℕ) : AccountRec :=
  if coin < 7/10 ∧ opps ≠ [] then
    pyChoice (accounts.filter (fun a => opps.any (fun o => o.AccountId == a.Id)))
      ⟨0, 0, 0, ⟨1970, 1, 1⟩⟩ idx
  else pyChoice accounts ⟨0, 0, 0, ⟨1970, 1, 1⟩⟩ idx

/-- The `WhoId` of one task: a contact of the chosen account when that
account has contacts, otherwise null. -/
def taskWho (contacts : List ContactRec) (aid : ℕ) (idx : ℕ) : Option ℕ :=
  if contactsForAccount contacts aid = [] then none
  else some (pyChoice (contactsForAccount contacts aid) ⟨0, aid, 0, ⟨1970, 1, 1⟩⟩ idx).Id

/-- The activity date of one task: clustered `randint(-30, 90)` days around
a random opportunity of the account when one exists, otherwise a uniform
date in the configured range. -/
def taskActivityDate (opps : List OppRef) (aid : ℕ) (oppIdx dayDraw : ℕ) : Date :=
  if opps.filter (fun o => o.AccountId == aid) = [] then
    random_date ⟨2023, 1, 1⟩ dayDraw
  else
    addDaysInt (pyChoice (opps.filter (fun o => o.AccountId == aid))
        ⟨aid, ⟨1970, 1, 1⟩⟩ oppIdx).CreatedDate
      (pyRandintInt (-30) 90 dayDraw)

/-- One task of `generate_activities`: `WhatId` is the chosen account's id,
`WhoId` a contact of that account if it has any, and a call duration only
for tasks of type `Call`. -/
def genTask (accounts : List AccountRec) (contacts : List ContactRec)
    (opps : List OppRef) (taskId ownerId : ℕ) (acctCoin : ℚ)
    (acctIdx contactIdx oppIdx dayDraw typeIdx durDraw : ℕ) : TaskRec :=
  { Id := taskId,
    WhoId := taskWho contacts (taskAccount accounts opps acctCoin acctIdx).Id contactIdx,
    WhatId := (taskAccount accounts opps acctCoin acctIdx).Id,
    OwnerId := ownerId,
    Type' := pyChoice TASK_TYPES "" typeIdx,
    ActivityDate := taskActivityDate opps (taskAccount accounts opps acctCoin acctIdx).Id
      oppIdx dayDraw,
    CallDurationInSeconds := if pyChoice TASK_TYPES "" typeIdx = "Call"
      then pyRandintNat 60 3600 durDraw else 0 }

/-- Concrete campaign used to instantiate the campaign-member theorems. -/
def campW : CampaignRec :=
  { Id := 11, Type' := "Email", Status := "Completed", NumberSent := 4,
    CreatedDate := ⟨2023, 1, 1⟩ }

/-- Concrete contacts used to instantiate the campaign-member theorems. -/
def ctW : ContactRec := { Id := 7, AccountId := 1, OwnerId := 2, CreatedDate := ⟨2023, 1, 1⟩ }

/-- A second concrete contact. -/
def ctW2 : ContactRec := { Id := 8, AccountId := 1, OwnerId := 2, CreatedDate := ⟨2023, 1, 1⟩ }

/-- Concrete draw bundle used to instantiate the campaign-member theorems. -/
def drawsW : MemberDraws :=
  { u := 1/2, cIdxs := [0], lIdxs := [],
    cCoins := fun _ => 1, lCoins := fun _ => 1,
    cStatusIdx := fun _ => 0, lStatusIdx := fun _ => 0,
    cDayOff := fun _ => 0, lDayOff := fun _ => 0,
    cIds := fun _ => 100, lIds := fun _ => 200 }

/-- Concrete account used to instantiate the contact-count theorems. -/
def acctW : AccountRec :=
  { Id := 1, OwnerId := 2, NumberOfEmployees := 1000, CreatedDate := ⟨2023, 5, 5⟩ }

/-! Helper lemmas about the random-primitive models. -/

theorem pyChoice_mem {α : Type} {l : List α} (h : l ≠ []) (d : α) (i : ℕ) :
    pyChoice l d i ∈ l := by
  have hlen : 0 < l.length := List.length_pos.mpr h
  have hlt : i % l.length < l.length := Nat.mod_lt _ hlen
  rw [pyChoice, List.getD_eq_getElem l d hlt]
  exact l.getElem_mem hlt

theorem pyRandintNat_le {a b d : ℕ} (hab : a ≤ b) : pyRandintNat a b d ≤ b := by
  have h : d % (b + 1 - a) < b + 1 - a := Nat.mod_lt _ (by omega)
  rw [pyRandintNat]; omega

theorem le_pyRandintNat (a b d : ℕ) : a ≤ pyRandintNat a b d := Nat.le_add_right a _

theorem pyInt_of_nonneg {q : ℚ} (h : 0 ≤ q) : pyInt q = ⌊q⌋ := by
  rw [pyInt, if_pos h]

theorem pyInt_nonneg {q : ℚ} (h : 0 ≤ q) : 0 ≤ pyInt q := by
  rw [pyInt_of_nonneg h]; exact Int.floor_nonneg.mpr h

theorem pyInt_scale_le {x : ℤ} (c : ℚ) (hx : 0 ≤ x) (hc0 : 0 ≤ c) (hc1 : c ≤ 1) :
    pyInt ((x : ℚ) * c) ≤ x := by
  have hq : 0 ≤ (x : ℚ) * c := mul_nonneg (by exact_mod_cast hx) hc0
  rw [pyInt_of_nonneg hq]
  calc ⌊(x : ℚ) * c⌋ ≤ ⌊(x : ℚ)⌋ :=
        Int.floor_le_floor (mul_le_of_le_one_right (by exact_mod_cast hx) hc1)
    _ = x := Int.floor_intCast x

theorem mapWithIndex_length {α β : Type} (f : ℕ → α → β) :
    ∀ (l : List α) (k : ℕ), (mapWithIndex f l k).length = l.length := by
  intro l
  induction l with
  | nil => intro k; rfl
  | cons x xs ih => intro k; simp [mapWithIndex, ih]

theorem mem_mapWithIndex {α β : Type} {f : ℕ → α → β} {b : β} :
    ∀ {l : List α} {k : ℕ}, b ∈ mapWithIndex f l k → ∃ j x, x ∈ l ∧ b = f j x := by
  intro l
  induction l with
  | nil => intro k h; simp [mapWithIndex] at h
  | cons x xs ih =>
    intro k h
    rw [mapWithIndex, List.mem_cons] at h
    rcases h with h | h
    · exact ⟨k, x, List.mem_cons_self x xs, h⟩
    · obtain ⟨j, y, hy, hb⟩ := ih h
      exact ⟨j, y, List.mem_cons_of_mem x hy, hb⟩

theorem sampleList_subset {α : Type} :
    ∀ (k : ℕ) (pool : List α) (idxs : List ℕ), ∀ x ∈ sampleList pool k idxs, x ∈ pool := by
  intro k
  induction k with
  | zero => intro pool idxs x hx; simp [sampleList] at hx
  | succ n ih =>
    intro pool idxs x hx
    rw [sampleList] at hx
    rcases hget : pool.get? (idxs.headD 0 % pool.length) with _ | y
    · rw [hget] at hx; simp at hx
    · rw [hget] at hx
      rcases List.mem_cons.mp hx with h | h
      · exact h ▸ List.get?_mem hget
      · exact (pool.eraseIdx_subset _) (ih _ _ _ h)

theorem pySample_eq_some {α : Type} {pool : List α} {k : ℤ} {idxs : List ℕ}
    {l : List α} (h : pySample pool k idxs = some l) :
    l = sampleList pool k.toNat idxs := by
  rw [pySample] at h
  split at h
  · exact (Option.some_injective _ h).symm
  · exact absurd h (by simp)

theorem pySample_isSome {α : Type} (pool : List α) (k : ℤ) (idxs : List ℕ)
    (h0 : 0 ≤ k) (h1 : k ≤ (pool.length : ℤ)) :
    pySample pool k idxs = some (sampleList pool k.toNat idxs) := by
  rw [pySample, if_pos ⟨h0, h1⟩]

/-- C9: a run of `generate_users` with target count 25 produces exactly one
user with a null `ManagerId`, that user's `Id` is the root id, and each of
the other 24 users has `ManagerId` equal to that root id. -/
theorem users_single_root (managerId : ℕ) (repIds : ℕ → ℕ) (activeCoins : ℕ → ℚ)
    (dateDraws : ℕ → ℕ) :
    (generate_users 25 managerId repIds activeCoins dateDraws).length = 25 ∧
    ((generate_users 25 managerId repIds activeCoins dateDraws).filter
        (fun u => u.ManagerId.isNone)).length = 1 ∧
    (∀ u ∈ generate_users 25 managerId repIds activeCoins dateDraws,
        u.ManagerId = none → u.Id = managerId) ∧
    (∀ u ∈ generate_users 25 managerId repIds activeCoins dateDraws,
        u.ManagerId ≠ none → u.ManagerId = some managerId) := by
  refine ⟨by simp [generate_users], ?_, ?_, ?_⟩
  · simp [generate_users, List.filter_cons, List.filter_map, Function.comp]
  · intro u hu hnone
    rw [generate_users, List.mem_cons] at hu
    rcases hu with rfl | hu
    · rfl
    · obtain ⟨i, _, rfl⟩ := List.mem_map.mp hu
      simp at hnone
  · intro u hu _
    rw [generate_users, List.mem_cons] at hu
    rcases hu with rfl | hu
    · simp_all
    · obtain ⟨i, _, rfl⟩ := List.mem_map.mp hu
      rfl

/-- Witness for C9 at a concrete root id and concrete draw streams. -/
theorem users_single_root_witness :
    (generate_users 25 3 (fun i => 10 + i) (fun _ => 1/2) (fun _ => 0)).length = 25 ∧
    ((generate_users 25 3 (fun i => 10 + i) (fun _ => 1/2) (fun _ => 0)).filter
        (fun u => u.ManagerId.isNone)).length = 1 ∧
    (∀ u ∈ generate_users 25 3 (fun i => 10 + i) (fun _ => 1/2) (fun _ => 0),
        u.ManagerId = none → u.Id = 3) ∧
    (∀ u ∈ generate_users 25 3 (fun i => 10 + i) (fun _ => 1/2) (fun _ => 0),
        u.ManagerId ≠ none → u.ManagerId = some 3) :=
  users_single_root 3 (fun i => 10 + i) (fun _ => 1/2) (fun _ => 0)

/-- C5 (amended): the contact count of a run lies between the number of
accounts and the sum over accounts of `clamp(1, employees // 100, 5)` -
the per-account count is `randint(1, clamp)`, not the clamp itself. -/
theorem contact_count_bounds (accounts : List AccountRec) (countDraws : ℕ → ℕ)
    (idDraws : ℕ → ℕ → ℕ) (k : ℕ) :
    accounts.length ≤ (generate_contacts accounts countDraws idDraws k).length ∧
    (generate_contacts accounts countDraws idDraws k).length ≤
      (accounts.map (fun a => specContactClamp a.NumberOfEmployees)).sum := by
  induction accounts generalizing k with
  | nil => simp [generate_contacts]
  | cons a rest ih =>
    have h1 : 1 ≤ numContactsFor a.NumberOfEmployees (countDraws k) :=
      le_pyRandintNat 1 _ _
    have h2 : numContactsFor a.NumberOfEmployees (countDraws k) ≤
        specContactClamp a.NumberOfEmployees := by
      rw [numContactsFor, specContactClamp]
      exact pyRandintNat_le (by omega)
    have hrest := ih (k + 1)
    simp only [generate_contacts, List.length_append, List.length_map,
      List.length_range, List.map_cons, List.sum_cons, List.length_cons]
    omega

/-- Witness for C5's amended bound at a concrete account list. -/
theorem contact_count_bounds_witness :
    [acctW].length ≤ (generate_contacts [acctW] (fun _ => 1) (fun _ _ => 0) 0).length ∧
    (generate_contacts [acctW] (fun _ => 1) (fun _ _ => 0) 0).length ≤
      ([acctW].map (fun a => specContactClamp a.NumberOfEmployees)).sum :=
  contact_count_bounds [acctW] (fun _ => 1) (fun _ _ => 0) 0

/-- C5 counterexample: for a single account with 1000 employees and a
`randint` draw of 2, the run yields 2 contacts while the spec's clamp sum
is 5, so the total contact count does not equal the clamp sum. -/
theorem contact_count_counterexample :
    (generate_contacts [acctW] (fun _ => 1) (fun _ _ => 0) 0).length ≠
      ([acctW].map (fun a => specContactClamp a.NumberOfEmployees)).sum := by
  decide

/-- C6: a generated lead is converted exactly when its converted-account,
converted-contact and converted-date fields are all non-null; all four
conversion fields are null when it is not converted; and the converted
opportunity id can be null even for a converted lead (witnessed by the
`oppCoin = 1` draw). -/
theorem lead_conversion_fields (leadId : ℕ) (created : Date) (coin : ℚ)
    (dateDraw : ℕ) (acctId contactId oppId : ℕ) (oppCoin : ℚ) (statusIdx : ℕ)
    (l : LeadConvRec)
    (hl : l = leadConversion leadId created coin dateDraw acctId contactId oppId
      oppCoin statusIdx) :
    (l.IsConverted = true ↔
      l.ConvertedAccountId.isSome ∧ l.ConvertedContactId.isSome ∧
      l.ConvertedDate.isSome) ∧
    (l.IsConverted = false →
      l.ConvertedAccountId = none ∧ l.ConvertedContactId = none ∧
      l.ConvertedOpportunityId = none ∧ l.ConvertedDate = none) ∧
    ((leadConversion 0 ⟨2023, 1, 1⟩ 0 0 0 0 0 1 0).IsConverted = true ∧
      (leadConversion 0 ⟨2023, 1, 1⟩ 0 0 0 0 0 1 0).ConvertedOpportunityId = none) := by
  subst hl
  refine ⟨?_, ?_, ?_, ?_⟩
  · rw [leadConversion]; split <;> simp
  · rw [leadConversion]; split <;> simp
  · rw [leadConversion, if_pos (show (0 : ℚ) < 3/10 by norm_num)]
  · rw [leadConversion, if_pos (show (0 : ℚ) < 3/10 by norm_num)]
    simp only []
    rw [if_neg (show ¬ ((1 : ℚ) < 4/5) by norm_num)]

/-- Witness for C6 at a concrete converted lead. -/
theorem lead_conversion_fields_witness :
    ((leadConversion 1 ⟨2023, 2, 2⟩ (1/5) 0 4 5 6 (1/2) 0).IsConverted = true ↔
      (leadConversion 1 ⟨2023, 2, 2⟩ (1/5) 0 4 5 6 (1/2) 0).ConvertedAccountId.isSome ∧
      (leadConversion 1 ⟨2023, 2, 2⟩ (1/5) 0 4 5 6 (1/2) 0).ConvertedContactId.isSome ∧
      (leadConversion 1 ⟨2023, 2, 2⟩ (1/5) 0 4 5 6 (1/2) 0).ConvertedDate.isSome) ∧
    ((leadConversion 1 ⟨2023, 2, 2⟩ (1/5) 0 4 5 6 (1/2) 0).IsConverted = false →
      (leadConversion 1 ⟨2023, 2, 2⟩ (1/5) 0 4 5 6 (1/2) 0).ConvertedAccountId = none ∧
      (leadConversion 1 ⟨2023, 2, 2⟩ (1/5) 0 4 5 6 (1/2) 0).ConvertedContactId = none ∧
      (leadConversion 1 ⟨2023, 2, 2⟩ (1/5) 0 4 5 6 (1/2) 0).ConvertedOpportunityId = none ∧
      (leadConversion 1 ⟨2023, 2, 2⟩ (1/5) 0 4 5 6 (1/2) 0).ConvertedDate = none) ∧
    ((leadConversion 0 ⟨2023, 1, 1⟩ 0 0 0 0 0 1 0).IsConverted = true ∧
      (leadConversion 0 ⟨2023, 1, 1⟩ 0 0 0 0 0 1 0).ConvertedOpportunityId = none) :=
  lead_conversion_fields 1 ⟨2023, 2, 2⟩ (1/5) 0 4 5 6 (1/2) 0 _ rfl

/-- C1 (amended): the amount-allocation loop is sum-preserving - for an
opportunity with at least one line item, the allocated item amounts sum to
the opportunity amount exactly (it is the recomputation of `TotalPrice`
from the truncated quantity that breaks the claim as stated). -/
theorem allocation_sum_preserved (amount : ℚ) (pids : List ℕ) (fracs : List ℚ)
    (h : pids ≠ []) :
    (allocAmounts amount pids fracs).sum = amount := by
  induction pids generalizing amount fracs with
  | nil => exact absurd rfl h
  | cons p rest ih =>
    cases rest with
    | nil => simp [allocAmounts]
    | cons p₂ rest₂ =>
      rw [allocAmounts, List.sum_cons, ih _ _ (by simp)]
      ring

/-- Witness for C1's amended sum-preservation at a concrete allocation. -/
theorem allocation_sum_preserved_witness :
    (allocAmounts 100 [1, 2] [1/4]).sum = 100 :=
  allocation_sum_preserved 100 [1, 2] [1/4] (by simp)

/-- C1 counterexample: an opportunity of amount 1000 whose single product
has catalog price 50000 gets one line item with `Quantity = 1` and
`TotalPrice = 50000`, so the `TotalPrice` sum misses the amount by 49000 -
far beyond 2-decimal-place rounding. -/
theorem line_total_sum_counterexample :
    ¬ (|((mkLineItems 0 [(1, 50000)] 1000 [1] [] (fun _ => 0)).map
          (fun li => li.TotalPrice)).sum - 1000| ≤ (1 : ℚ)/100) := by
  have h0 : mkLineItems 0 [(1, 50000)] 1000 [1] [] (fun _ => 0) =
      [mkLineItem 0 0 1 50000 1000] := rfl
  have hfloor : pyInt ((1000 : ℚ) / 50000) = 0 := by
    rw [pyInt, if_pos (by norm_num)]
    norm_num [Int.floor_eq_iff]
  have h5 : pyRound (5000000 : ℚ) = 5000000 := by
    have hf : ⌊(5000000 : ℚ)⌋ = 5000000 := by norm_num [Int.floor_eq_iff]
    rw [pyRound, hf]
    norm_num
  have hsum : ((mkLineItems 0 [(1, 50000)] 1000 [1] [] (fun _ => 0)).map
      (fun li => li.TotalPrice)).sum = 50000 := by
    rw [h0]
    simp only [List.map_cons, List.map_nil, List.sum_cons, List.sum_nil, add_zero]
    rw [mkLineItem]
    simp only [hfloor]
    norm_num [round2]
    rw [h5]
    norm_num
  rw [hsum, abs_of_nonneg (by norm_num : (0 : ℚ) ≤ 50000 - 1000)]
  norm_num

/-- C7 counterexample: for an allocated item amount of 8000 at unit price
5000 the code's quantity is `max(1, int(1.6)) = 1`, while the spec's
`max(1, round(1.6))` is 2. -/
theorem quantity_round_counterexample :
    (mkLineItem 0 0 1 5000 8000).Quantity ≠ specQuantity 8000 5000 := by
  have hf : ⌊(8000 : ℚ) / 5000⌋ = 1 := by norm_num [Int.floor_eq_iff]
  have hcode : (mkLineItem 0 0 1 5000 8000).Quantity = 1 := by
    show max 1 (pyInt ((8000 : ℚ) / 5000)) = 1
    rw [pyInt, if_pos (by norm_num), hf]
    decide
  have hr : round ((8000 : ℚ) / 5000) = 2 := by
    norm_num [round_eq, Int.floor_eq_iff]
  have hspec : specQuantity 8000 5000 = 2 := by
    rw [specQuantity, hr]
    decide
  rw [hcode, hspec]
  decide

/-- C7 (amended): the quantity is computed with truncation, not rounding -
for a nonnegative item amount and a positive unit price the generated
quantity equals `max(1, floor(item_amount / unit_price))`, and in
particular is at least 1. -/
theorem quantity_floor_formula (itemId oppId pid : ℕ) (unitPrice itemAmount : ℚ)
    (h0 : 0 ≤ itemAmount) (hu : 0 < unitPrice) :
    (mkLineItem itemId oppId pid unitPrice itemAmount).Quantity =
      max 1 ⌊itemAmount / unitPrice⌋ ∧
    1 ≤ (mkLineItem itemId oppId pid unitPrice itemAmount).Quantity := by
  have hq : 0 ≤ itemAmount / unitPrice := div_nonneg h0 hu.le
  constructor
  · show max 1 (pyInt (itemAmount / unitPrice)) = max 1 ⌊itemAmount / unitPrice⌋
    rw [pyInt_of_nonneg hq]
  · show (1 : ℤ) ≤ max 1 (pyInt (itemAmount / unitPrice))
    exact le_max_left 1 _

/-- Witness for C7's amended quantity formula at the same concrete item. -/
theorem quantity_floor_formula_witness :
    (mkLineItem 0 0 1 5000 8000).Quantity = max 1 ⌊(8000 : ℚ) / 5000⌋ ∧
    1 ≤ (mkLineItem 0 0 1 5000 8000).Quantity :=
  quantity_floor_formula 0 0 1 5000 8000 (by norm_num) (by norm_num)

theorem openPick_inv (l : List (String × ℤ))
    (hl : ∀ p ∈ l, stageLookup p.1 = some p.2) (hne : l ≠ []) (i : ℕ) :
    OppStageInv (openPick l i) := by
  unfold OppStageInv
  have hm := pyChoice_mem hne ("", 0) i
  refine ⟨by simp [openPick], by simp [openPick], ?_⟩
  simpa [openPick] using hl _ hm

theorem closedPick_inv (l : List (String × ℤ))
    (hl : ∀ p ∈ l, stageLookup p.1 = some p.2 ∧
      (p.1 = "Closed Won" ∨ p.1 = "Closed Lost"))
    (hne : l ≠ []) (i : ℕ) :
    OppStageInv (closedPick l i) := by
  unfold OppStageInv
  have hm := pyChoice_mem hne ("", 0) i
  obtain ⟨h1, h2⟩ := hl _ hm
  refine ⟨fun _ => rfl, fun _ => ?_, ?_⟩
  · simpa [closedPick] using h2
  · simpa [closedPick] using h1

theorem stageSelect_inv (daysOld : ℤ) (closedCoin : ℚ) (iOld iMed iNew : ℕ) :
    OppStageInv (stageSelect daysOld closedCoin iOld iMed iNew) := by
  unfold stageSelect
  split
  · split
    · exact closedPick_inv _ (by decide) (by decide) _
    · exact openPick_inv _ (by decide) (by decide) _
  · split
    · split
      · exact closedPick_inv _ (by decide) (by decide) _
      · exact openPick_inv _ (by decide) (by decide) _
    · exact openPick_inv _ (by decide) (by decide) _

theorem applySizePenalty_inv (amount : ℚ) (r : StagePick) (penaltyCoin : ℚ)
    (h : OppStageInv r) : OppStageInv (applySizePenalty amount r penaltyCoin) := by
  unfold applySizePenalty
  split
  · split
    · rename_i hcond _
      exact ⟨fun _ => hcond.1, fun _ => Or.inr rfl,
        show stageLookup "Closed Lost" = some 0 by decide⟩
    · exact h
  · exact h

/-- C4: every generated opportunity satisfies the stage invariants - won
implies closed, closed implies a `Closed Won`/`Closed Lost` stage name,
and the probability is the `STAGES` lookup value of the stage - on every
age tier and also on the large-deal downgrade path. -/
theorem opportunity_stage_invariants (daysOld : ℤ) (closedCoin : ℚ)
    (iOld iMed iNew : ℕ) (amount penaltyCoin : ℚ) :
    OppStageInv (oppStage daysOld closedCoin iOld iMed iNew amount penaltyCoin) :=
  applySizePenalty_inv amount _ penaltyCoin
    (stageSelect_inv daysOld closedCoin iOld iMed iNew)

/-- Witness for C4 on the downgrade path: an old closed deal of amount
150000 whose penalty coin fires. -/
theorem opportunity_stage_invariants_witness :
    OppStageInv (oppStage 200 (1/2) 0 0 0 150000 (1/5)) :=
  opportunity_stage_invariants 200 (1/2) 0 0 0 150000 (1/5)

/-- C2 (code bug): the close date of an open opportunity is drawn from a
window anchored at the wall-clock `datetime.now()`, so the very same
random draws yield different opportunity records when the run happens at a
different time - seed and configuration alone do not reproduce the
output. -/
theorem close_date_depends_on_now :
    oppCloseDate false ⟨2024, 3, 1⟩ 0 ⟨2025, 1, 1⟩ 5 (1/2) 25 25 ≠
    oppCloseDate false ⟨2024, 3, 1⟩ 0 ⟨2025, 6, 1⟩ 5 (1/2) 25 25 := by
  have hno : ¬ ((1 : ℚ)/2 < 3/10) := by norm_num
  simp only [oppCloseDate, Bool.false_eq_true, if_false,
    random_date_weighted_quarter_end, if_neg hno]
  decide

theorem memberTarget_nonneg (camp : CampaignRec) (pc pl : ℕ) (u : ℚ) (hu : 0 ≤ u) :
    0 ≤ memberTarget camp pc pl u := by
  have hpool : (0 : ℤ) ≤ ((pc + pl : ℕ) : ℤ) := Int.natCast_nonneg _
  have hns : (0 : ℤ) ≤ (camp.NumberSent : ℤ) := Int.natCast_nonneg _
  have hbase : 0 ≤ pyInt ((camp.NumberSent : ℚ) * u) :=
    pyInt_nonneg (mul_nonneg (by positivity) hu)
  have hbaseQ : (0 : ℚ) ≤ (pyInt ((camp.NumberSent : ℚ) * u) : ℚ) := by
    exact_mod_cast hbase
  unfold memberTarget
  split
  · split
    · exact le_min hns hpool
    · split
      · exact le_min (pyInt_nonneg (by positivity)) hpool
      · exact le_min (pyInt_nonneg (by positivity)) hpool
  · split
    · exact le_min hbase hpool
    · split
      · exact le_min (pyInt_nonneg (mul_nonneg hbaseQ (by norm_num))) hpool
      · exact le_min (pyInt_nonneg (mul_nonneg hbaseQ (by norm_num))) hpool

theorem memberQuota_bounds (camp : CampaignRec) (pc pl : ℕ) (u : ℚ) (hu : 0 ≤ u) :
    0 ≤ (memberQuota camp pc pl u).1 ∧ 0 ≤ (memberQuota camp pc pl u).2 := by
  have ht := memberTarget_nonneg camp pc pl u hu
  have h1 : 0 ≤ pyInt ((memberTarget camp pc pl u : ℚ) * (7/10)) :=
    pyInt_nonneg (mul_nonneg (by exact_mod_cast ht) (by norm_num))
  have h2 : pyInt ((memberTarget camp pc pl u : ℚ) * (7/10)) ≤ memberTarget camp pc pl u :=
    pyInt_scale_le _ ht (by norm_num) (by norm_num)
  constructor
  · exact h1
  · show 0 ≤ memberTarget camp pc pl u - pyInt ((memberTarget camp pc pl u : ℚ) * (7/10))
    omega

theorem membersForCampaign_some (camp : CampaignRec) (contacts : List ContactRec)
    (uleads : List LeadRec) (d : MemberDraws) (hu : 0 ≤ d.u) :
    membersForCampaign camp contacts uleads d =
      some (mapWithIndex (contactMember camp d)
          (sampleList contacts
            (min (memberQuota camp contacts.length uleads.length d.u).1
              (contacts.length : ℤ)).toNat d.cIdxs) 0 ++
        mapWithIndex (leadMember camp d)
          (sampleList uleads
            (min (memberQuota camp contacts.length uleads.length d.u).2
              (uleads.length : ℤ)).toNat d.lIdxs) 0) := by
  obtain ⟨h1, h2⟩ := memberQuota_bounds camp contacts.length uleads.length d.u hu
  rw [membersForCampaign,
    pySample_isSome _ _ _ (le_min h1 (Int.natCast_nonneg _)) (min_le_right _ _),
    pySample_isSome _ _ _ (le_min h2 (Int.natCast_nonneg _)) (min_le_right _ _)]
  rfl

theorem genMembersGo_some (campaigns : List CampaignRec) (contacts : List ContactRec)
    (uleads : List LeadRec) (ds : ℕ → MemberDraws) (hu : ∀ k, 0 ≤ (ds k).u) :
    ∀ k, (genMembersGo campaigns contacts uleads ds k).isSome := by
  induction campaigns with
  | nil => intro k; rfl
  | cons c rest ih =>
    intro k
    obtain ⟨more, hmore⟩ := Option.isSome_iff_exists.mp (ih (k + 1))
    rw [genMembersGo, membersForCampaign_some c contacts uleads (ds k) (hu k),
      Option.some_bind, hmore, Option.map_some']
    rfl

/-- C8: campaign-member generation never fails for lack of eligible people:
whatever the campaigns, contact pool and lead pool, every per-campaign
sample request is capped at its pool's size and the generator returns a
member list (never the error value). -/
theorem campaign_members_never_fail (campaigns : List CampaignRec)
    (leads : List LeadRec) (contacts : List ContactRec) (ds : ℕ → MemberDraws)
    (hu : ∀ k, 0 ≤ (ds k).u) :
    ∃ ms, generate_campaign_members campaigns leads contacts ds = some ms := by
  rw [generate_campaign_members]
  exact Option.isSome_iff_exists.mp (genMembersGo_some campaigns contacts _ ds hu 0)

/-- Witness for C8: a Completed Email campaign whose `NumberSent` (4)
exceeds the eligible pool (2 contacts, no leads). -/
theorem campaign_members_never_fail_witness :
    ∃ ms, generate_campaign_members [campW] [] [ctW, ctW2] (fun _ => drawsW) = some ms :=
  campaign_members_never_fail [campW] [] [ctW, ctW2] (fun _ => drawsW)
    (fun _ => by norm_num [drawsW])

theorem mem_membersForCampaign {camp : CampaignRec} {contacts : List ContactRec}
    {uleads : List LeadRec} {d : MemberDraws} {ms : List CampaignMemberRec}
    {m : CampaignMemberRec}
    (h : membersForCampaign camp contacts uleads d = some ms) (hm : m ∈ ms) :
    (m.ContactId.isSome ∧ m.LeadId = none) ∨
    (m.LeadId.isSome ∧ m.ContactId = none) := by
  rw [membersForCampaign] at h
  obtain ⟨sc, _, h2⟩ := Option.bind_eq_some.mp h
  obtain ⟨sl, _, rfl⟩ := Option.map_eq_some'.mp h2
  rcases List.mem_append.mp hm with hc | hl
  · obtain ⟨j, x, _, rfl⟩ := mem_mapWithIndex hc
    exact Or.inl ⟨by simp [contactMember], by simp [contactMember]⟩
  · obtain ⟨j, x, _, rfl⟩ := mem_mapWithIndex hl
    exact Or.inr ⟨by simp [leadMember], by simp [leadMember]⟩

theorem genMembersGo_exclusive :
    ∀ (campaigns : List CampaignRec) (contacts : List ContactRec)
      (uleads : List LeadRec) (ds : ℕ → MemberDraws) (k : ℕ)
      (ms : List CampaignMemberRec) (m : CampaignMemberRec),
      genMembersGo campaigns contacts uleads ds k = some ms → m ∈ ms →
      (m.ContactId.isSome ∧ m.LeadId = none) ∨
      (m.LeadId.isSome ∧ m.ContactId = none) := by
  intro campaigns
  induction campaigns with
  | nil =>
    intro contacts uleads ds k ms m h hm
    rw [genMembersGo] at h
    obtain rfl := Option.some_injective _ h
    simp at hm
  | cons c rest ih =>
    intro contacts uleads ds k ms m h hm
    rw [genMembersGo] at h
    obtain ⟨ms₁, h₁, h₂⟩ := Option.bind_eq_some.mp h
    obtain ⟨ms₂, hrec, rfl⟩ := Option.map_eq_some'.mp h₂
    rcases List.mem_append.mp hm with hmem | hmem
    · exact mem_membersForCampaign h₁ hmem
    · exact ih contacts uleads ds (k + 1) ms₂ m hrec hmem

/-- C3: every record produced by `generate_campaign_members` has exactly
one of `LeadId`/`ContactId` non-null - contact members carry a null
`LeadId`, lead members a null `ContactId`, and no member has both or
neither set. -/
theorem campaign_member_exclusive (campaigns : List CampaignRec)
    (leads : List LeadRec) (contacts : List ContactRec) (ds : ℕ → MemberDraws)
    (ms : List CampaignMemberRec) (m : CampaignMemberRec)
    (hgen : generate_campaign_members campaigns leads contacts ds = some ms)
    (hm : m ∈ ms) :
    (m.ContactId.isSome ∧ m.LeadId = none) ∨
    (m.LeadId.isSome ∧ m.ContactId = none) := by
  rw [generate_campaign_members] at hgen
  exact genMembersGo_exclusive campaigns contacts _ ds 0 ms m hgen hm

/-- Witness for C3: the member produced for the concrete campaign and
contact pool has a `ContactId` and a null `LeadId`. -/
theorem campaign_member_exclusive_witness :
    ((contactMember campW drawsW 0 ctW).ContactId.isSome ∧
      (contactMember campW drawsW 0 ctW).LeadId = none) ∨
    ((contactMember campW drawsW 0 ctW).LeadId.isSome ∧
      (contactMember campW drawsW 0 ctW).ContactId = none) := by
  have htarget : memberTarget campW 2 0 drawsW.u = 2 := by
    norm_num [memberTarget, campW, drawsW]
  have hquota : memberQuota campW 2 0 drawsW.u = (1, 1) := by
    rw [memberQuota, htarget]
    norm_num [pyInt]
  have hgen : generate_campaign_members [campW] [] [ctW, ctW2] (fun _ => drawsW) =
      some [contactMember campW drawsW 0 ctW] := by
    rw [generate_campaign_members]
    show genMembersGo [campW] [ctW, ctW2] [] (fun _ => drawsW) 0 = _
    rw [genMembersGo,
      membersForCampaign_some campW [ctW, ctW2] [] drawsW (by norm_num [drawsW])]
    show (some (mapWithIndex (contactMember campW drawsW)
        (sampleList [ctW, ctW2] (min (memberQuota campW 2 0 drawsW.u).1 2).toNat
          drawsW.cIdxs) 0 ++
      mapWithIndex (leadMember campW drawsW)
        (sampleList [] (min (memberQuota campW 2 0 drawsW.u).2 0).toNat
          drawsW.lIdxs) 0)).bind _ = _
    rw [hquota]
    rfl
  exact campaign_member_exclusive [campW] [] [ctW, ctW2] (fun _ => drawsW)
    [contactMember campW drawsW 0 ctW] (contactMember campW drawsW 0 ctW)
    hgen (List.mem_singleton.mpr rfl)

theorem taskWho_sound {contacts : List ContactRec} {aid : ℕ} {idx : ℕ} {cid : ℕ}
    (h : taskWho contacts aid idx = some cid) :
    ∃ c, c ∈ contacts ∧ c.Id = cid ∧ c.AccountId = aid := by
  rw [taskWho] at h
  split at h
  · exact absurd h (by simp)
  · rename_i hne
    have hmem : pyChoice (contactsForAccount contacts aid) ⟨0, aid, 0, ⟨1970, 1, 1⟩⟩ idx ∈
        contactsForAccount contacts aid := pyChoice_mem hne _ idx
    rw [contactsForAccount, List.mem_filter] at hmem
    exact ⟨_, hmem.1, Option.some_injective _ h, by simpa using hmem.2⟩

/-- C10: whenever a generated task has a non-null `WhoId`, the referenced
contact is one of the generated contacts and belongs to the account the
task's `WhatId` references. -/
theorem task_who_same_account (accounts : List AccountRec) (contacts : List ContactRec)
    (opps : List OppRef) (taskId ownerId : ℕ) (acctCoin : ℚ)
    (acctIdx contactIdx oppIdx dayDraw typeIdx durDraw : ℕ) (cid : ℕ)
    (h : (genTask accounts contacts opps taskId ownerId acctCoin acctIdx contactIdx
        oppIdx dayDraw typeIdx durDraw).WhoId = some cid) :
    ∃ c, c ∈ contacts ∧ c.Id = cid ∧
      c.AccountId = (genTask accounts contacts opps taskId ownerId acctCoin acctIdx
        contactIdx oppIdx dayDraw typeIdx durDraw).WhatId := by
  have h' : taskWho contacts (taskAccount accounts opps acctCoin acctIdx).Id
      contactIdx = some cid := h
  obtain ⟨c, hc, hid, hacc⟩ := taskWho_sound h'
  exact ⟨c, hc, hid, hacc⟩

/-- Witness for C10 at a single account with a single contact. -/
theorem task_who_same_account_witness :
    ∃ c, c ∈ [(⟨5, 1, 2, ⟨2023, 1, 1⟩⟩ : ContactRec)] ∧ c.Id = 5 ∧
      c.AccountId = (genTask [⟨1, 2, 100, ⟨2023, 1, 1⟩⟩] [⟨5, 1, 2, ⟨2023, 1, 1⟩⟩]
        [] 9 3 1 0 0 0 0 0 0).WhatId := by
  have hacct : taskAccount [⟨1, 2, 100, ⟨2023, 1, 1⟩⟩] [] 1 0 =
      ⟨1, 2, 100, ⟨2023, 1, 1⟩⟩ := by
    rw [taskAccount, if_neg]
    · rfl
    · simp
  have hwho : (genTask [⟨1, 2, 100, ⟨2023, 1, 1⟩⟩] [⟨5, 1, 2, ⟨2023, 1, 1⟩⟩]
      [] 9 3 1 0 0 0 0 0 0).WhoId = some 5 := by
    show taskWho [⟨5, 1, 2, ⟨2023, 1, 1⟩⟩]
      (taskAccount [⟨1, 2, 100, ⟨2023, 1, 1⟩⟩] [] 1 0).Id 0 = some 5
    rw [hacct]
    rfl
  exact task_who_same_account [⟨1, 2, 100, ⟨2023, 1, 1⟩⟩] [⟨5, 1, 2, ⟨2023, 1, 1⟩⟩]
    [] 9 3 1 0 0 0 0 0 0 5 hwho
